import Mathlib

set_option linter.unusedVariables false

/-!
Verification of the stop-and-wait ARQ protocol implemented by
`client.py` (sender) and `server.py` (receiver).

Bytes are modelled as natural numbers, byte strings as `List Nat`
(each element the numeric value of one byte; all payloads in this
system are ASCII, where UTF-8 encoding is the identity on code
points).  The unreliable channel is modelled by an environment
trace handed to the state machines: each poll window is the list of
packets (or undecodable blobs) that arrive before the timer expires.
-/

namespace RDT

/-- Fuelled bit-counting loop; `fuel ≥ n` suffices since halving a
positive number strictly decreases it. -/
def popCountAux : Nat → Nat → Nat
  | 0, _ => 0
  | _ + 1, 0 => 0
  | fuel + 1, n + 1 => (n + 1) % 2 + popCountAux fuel ((n + 1) / 2)

/-- `bin(n).count("1")` for a non-negative integer: the number of set
bits in the binary representation of `n`. -/
def popCount (n : Nat) : Nat := popCountAux n n

/-- `sum(bin(byte).count("1") for byte in data_bytes)` from
`create_checksum` / `verify_checksum`. -/
def bitSum (data : List Nat) : Nat := (data.map popCount).sum

/-- Python `str.zfill(w)`: left-pad with ASCII zeros to width `w`;
a string already at least `w` long is returned unchanged. -/
def zfill (w : Nat) (s : String) : String :=
  String.mk (List.replicate (w - s.length) '0') ++ s

/-- UTF-8 encoding of an ASCII string as a byte list (identity on
code points, which is exact for every string this program builds). -/
def strToBytes (s : String) : List Nat := s.toList.map Char.toNat

/-- `client.py` / `server.py` `create_checksum(seq, data)`: counts set
bits over the payload bytes, renders the count in decimal, zero-pads
to 8 characters and encodes as bytes.  The `seq` argument is accepted
but never used. -/
def create_checksum (seq : Nat) (data : List Nat) : List Nat :=
  strToBytes (zfill 8 (Nat.repr (bitSum data)))

/-- `client.py` / `server.py` `verify_checksum(seq, checksum, data)`:
recomputes the digest from `data` and compares with `checksum` for
exact equality. -/
def verify_checksum (seq : Nat) (checksum : List Nat) (data : List Nat) : Bool :=
  checksum == strToBytes (zfill 8 (Nat.repr (bitSum data)))

/-- Reference digest, following the spec text for `compute(payload)`:
count of set bits across all bytes of the payload, rendered as a
decimal string, left-zero-padded to 8 characters, encoded as bytes. -/
def specDigest (payload : List Nat) : List Nat :=
  strToBytes (zfill 8 (Nat.repr (payload.foldl (fun acc b => acc + popCount b) 0)))

/-- A decoded packet: sequence number, checksum field, payload. -/
structure Packet where
  seq : Nat
  checksum : List Nat
  payload : List Nat
deriving DecidableEq, Repr

/-- The termination marker payload `b"DONE"`. -/
def donePayload : List Nat := strToBytes "DONE"

/-- The receiver's acknowledgement payload `f"ACK-{seq}"`. -/
def ackPayload (seq : Nat) : List Nat := strToBytes ("ACK-" ++ Nat.repr seq)

/-- The acknowledgement packet the server builds for received
sequence number `seq`. -/
def ackPacket (seq : Nat) : Packet :=
  { seq := seq
    checksum := create_checksum seq (ackPayload seq)
    payload := ackPayload seq }

/-- Outcome of one iteration of the server's receive loop on one
decoded packet. -/
structure ServerResult where
  expected : Nat
  acks : List Packet
  shutdown : Bool
deriving DecidableEq, Repr

/-- One iteration of the body of `server.py` `main`: verify the
checksum; on success advance `expected_seq` only when the received
sequence matches, always send an ACK carrying the received sequence,
and shut down if the payload is `b"DONE"`; on checksum failure drop
the packet, sending nothing and changing nothing. -/
def serverStep (expected_seq : Nat) (p : Packet) : ServerResult :=
  if verify_checksum p.seq p.checksum p.payload then
    let expected := if p.seq = expected_seq then (expected_seq + 1) % 256 else expected_seq
    { expected := expected
      acks := [ackPacket p.seq]
      shutdown := p.payload == donePayload }
  else
    { expected := expected_seq, acks := [], shutdown := false }

/-- How the server's `while True` loop ended. -/
inductive ServerExit where
  /-- `break` after acknowledging a `DONE` payload. -/
  | doneMsg : ServerExit
  /-- An exception escaped the loop body (there is no per-iteration
  handler, so `packet.extract` failing on an undecodable blob lands
  in the outer `except` and the loop is over). -/
  | crashed : ServerExit
  /-- The supplied trace of incoming datagrams was exhausted. -/
  | outOfInput : ServerExit
deriving DecidableEq, Repr

/-- Result of running the server's receive loop over a datagram trace. -/
structure ServerRun where
  expected : Nat
  acks : List Packet
  exit : ServerExit
deriving DecidableEq, Repr

/-- The server's receive loop over a trace of incoming datagrams.
`some p` is a datagram that `packet.extract` decodes to `p`; `none`
is an undecodable blob, on which `packet.extract` fails
(spec: a `MalformedPacket` condition) — the exception propagates out
of the loop to the outer handler. -/
def serverRun : Nat → List (Option Packet) → ServerRun
  | e, [] => { expected := e, acks := [], exit := ServerExit.outOfInput }
  | e, none :: _ => { expected := e, acks := [], exit := ServerExit.crashed }
  | e, some p :: rest =>
    let r := serverStep e p
    if r.shutdown then
      { expected := r.expected, acks := r.acks, exit := ServerExit.doneMsg }
    else
      let k := serverRun r.expected rest
      { expected := k.expected, acks := r.acks ++ k.acks, exit := k.exit }

/-! ### Sender (`client.py` `main`) -/

/-- `max_retries = 10` in `client.py`. -/
def max_retries : Nat := 10

/-- `timeout_value = 1.0`, the base timer duration.  Every value the
adaptive policy produces is a dyadic rational, representable exactly
by the Python float, so rationals model the arithmetic faithfully. -/
def baseTimeout : ℚ := 1

/-- A reply observed during one poll window: `some p` is a datagram
decoding to `p`; `none` is an undecodable blob, whose decode failure
the client catches (`except Exception` in the main loop, bare
`except` in the DONE loop) and keeps polling. -/
abbrev Reply := Option Packet

/-- All replies arriving during one timer window (one transmission
attempt). -/
abbrev Window := List Reply

/-- The client's acceptance test for a reply while waiting on
sequence `seq`: the checksum must verify against the reply's payload
and the reply's sequence must equal `seq`; an undecodable blob is
never accepted.  Nothing else about the reply is examined. -/
def acceptsReply (seq : Nat) : Reply → Bool
  | none => false
  | some p => verify_checksum p.seq p.checksum p.payload && p.seq == seq

/-- The inner polling loop of one transmission attempt: the wait ends
in acknowledgement exactly when some reply in the window is accepted. -/
def waitForAck (seq : Nat) (w : Window) : Bool := w.any (acceptsReply seq)

/-- Outcome of one message's send-wait-retry loop. -/
structure MsgOutcome where
  acked : Bool
  tv : ℚ
  sends : Nat
deriving DecidableEq, Repr

/-- The loop of `msgLoop`, with the explicit variant
`fuel = max_retries - retries`: the guard `retries < max_retries` of
the Python `while` holds exactly when `fuel` is positive, and each
failed attempt increments `retries` while `fuel` decreases, keeping
the correspondence. -/
def msgLoopAux (seq : Nat) : Nat → Nat → ℚ → List Window → Nat → MsgOutcome
  | 0, _, tv, _, sends => { acked := false, tv := tv, sends := sends }
  | fuel + 1, retries, tv, env, sends =>
    if waitForAck seq (env.headD []) then
      { acked := true, tv := tv, sends := sends + 1 }
    else
      msgLoopAux seq fuel (retries + 1)
        (if retries + 1 > 1 then min (tv * (3 / 2)) 5 else tv) env.tail (sends + 1)

/-- The `while not ack_received and retries < max_retries` loop of
`client.py` for one message: each iteration transmits the (fixed)
packet and waits one window; on a failed wait `retries` increments
and, from the second retry on, `timeout_value` becomes
`min(timeout_value * 1.5, 5.0)`.  A window absent from the
environment is a window in which nothing arrived. -/
def msgLoop (seq : Nat) (retries : Nat) (tv : ℚ) (env : List Window) (sends : Nat) :
    MsgOutcome :=
  msgLoopAux seq (max_retries - retries) retries tv env sends

/-- The payload `f"Message-{message_num}-Seq-{seq}"`. -/
def msgPayload (m seq : Nat) : List Nat :=
  strToBytes ("Message-" ++ Nat.repr m ++ "-Seq-" ++ Nat.repr seq)

/-- The packet the client builds for message number `m` at sequence
`seq`; rebuilt identically on every retransmission attempt. -/
def msgPacket (m seq : Nat) : Packet :=
  { seq := seq
    checksum := create_checksum seq (msgPayload m seq)
    payload := msgPayload m seq }

/-- Per-message record of the sender's run: message number, outstanding
sequence, `timeout_value` when the message began and when its retry
loop ended, whether it was acknowledged, and how many times its packet
was transmitted. -/
structure MsgRecord where
  msgNum : Nat
  seq : Nat
  tvStart : ℚ
  tvEnd : ℚ
  acked : Bool
  sends : Nat
deriving DecidableEq, Repr

/-- The `for message_num in range(20)` loop: `k` messages remain,
`m` is the next message number, `seq` the current sequence and `tv`
the current `timeout_value`.  On acknowledgement the sequence advances
modulo 256 and the loop continues; on retry exhaustion the loop breaks.
Returns the per-message records, the final sequence and the final
`timeout_value`. -/
def mainLoop : Nat → Nat → Nat → ℚ → List (List Window) → List MsgRecord × Nat × ℚ
  | 0, _, seq, tv, _ => ([], seq, tv)
  | k + 1, m, seq, tv, env =>
    let out := msgLoop seq 0 tv (env.headD []) 0
    let rec2 : MsgRecord :=
      { msgNum := m, seq := seq, tvStart := tv, tvEnd := out.tv
        acked := out.acked, sends := out.sends }
    if out.acked then
      let rest := mainLoop k (m + 1) ((seq + 1) % 256) out.tv env.tail
      (rec2 :: rest.1, rest.2)
    else
      ([rec2], seq, out.tv)

/-- The DONE packet built in the `finally` block at sequence `seq`. -/
def donePacket (seq : Nat) : Packet :=
  { seq := seq
    checksum := create_checksum seq donePayload
    payload := donePayload }

/-- The loop of `doneLoop`, with the explicit variant
`fuel = max_retries - retries` (the Python guard
`retries < max_retries` holds exactly when `fuel` is positive). -/
def doneLoopAux (seq : Nat) : Nat → List Window → Nat → Bool × Nat
  | 0, _, sends => (false, sends)
  | fuel + 1, env, sends =>
    if waitForAck seq (env.headD []) then
      (true, sends + 1)
    else
      doneLoopAux seq fuel env.tail (sends + 1)

/-- The `while not done_received and retries < max_retries` loop of
the `finally` block: same send-wait-retry shape as `msgLoop` but with
no timeout escalation.  Returns whether the DONE packet was
acknowledged and how many times it was transmitted. -/
def doneLoop (seq : Nat) (retries : Nat) (env : List Window) (sends : Nat) : Bool × Nat :=
  doneLoopAux seq (max_retries - retries) env sends

/-- Result of one whole client run. -/
structure RunResult where
  records : List MsgRecord
  finalSeq : Nat
  doneAcked : Bool
  doneSends : Nat
deriving DecidableEq, Repr

/-- One whole run of `client.py` `main`: the 20-message loop with
sequence starting at 0 and `timeout_value` starting at the base,
followed unconditionally (`finally`) by the DONE handshake at the
current sequence with a fresh retry budget. -/
def clientRun (env : List (List Window)) (doneEnv : List Window) : RunResult :=
  let r := mainLoop 20 0 0 baseTimeout env
  let d := doneLoop r.2.1 0 doneEnv 0
  { records := r.1, finalSeq := r.2.1, doneAcked := d.1, doneSends := d.2 }

/-! ### Helper lemmas -/

theorem bitSum_nil : bitSum [] = 0 := rfl

theorem bitSum_cons (x : Nat) (xs : List Nat) :
    bitSum (x :: xs) = popCount x + bitSum xs := by
  simp [bitSum]

theorem bitSum_foldl (data : List Nat) (a : Nat) :
    data.foldl (fun acc b => acc + popCount b) a = a + bitSum data := by
  induction data generalizing a with
  | nil => simp [bitSum]
  | cons x xs ih => simp only [List.foldl_cons, ih, bitSum_cons]; omega

theorem bitSum_replicate (n b : Nat) :
    bitSum (List.replicate n b) = n * popCount b := by
  induction n with
  | zero => simp [bitSum]
  | succ k ih =>
    rw [List.replicate_succ, bitSum_cons, ih]
    ring

theorem create_verifies (s s2 : Nat) (d : List Nat) :
    verify_checksum s2 (create_checksum s d) d = true := by
  simp [verify_checksum, create_checksum]

theorem acceptsReply_valid (s : Nat) (d : List Nat) :
    acceptsReply s (some { seq := s, checksum := create_checksum s d, payload := d }) = true := by
  simp [acceptsReply, create_verifies]

theorem msgLoopAux_accept (seq fuel retries : Nat) (tv : ℚ) (env : List Window)
    (sends : Nat) (hw : waitForAck seq (env.headD []) = true) :
    msgLoopAux seq (fuel + 1) retries tv env sends =
      { acked := true, tv := tv, sends := sends + 1 } := by
  simp only [msgLoopAux]
  rw [if_pos hw]

theorem msgLoopAux_fail (seq fuel retries : Nat) (tv : ℚ) (env : List Window)
    (sends : Nat) (hw : waitForAck seq (env.headD []) = false) :
    msgLoopAux seq (fuel + 1) retries tv env sends =
      msgLoopAux seq fuel (retries + 1)
        (if retries + 1 > 1 then min (tv * (3 / 2)) 5 else tv) env.tail (sends + 1) := by
  simp only [msgLoopAux]
  rw [if_neg (by rw [hw]; simp)]

/-- Within one message's retry loop, `timeout_value` never decreases
and stays within `[max 1 tv, 5]` whenever it starts in `[1, 5]`. -/
theorem msgLoopAux_tv (seq : Nat) :
    ∀ (fuel retries : Nat) (tv : ℚ) (env : List Window) (sends : Nat),
      1 ≤ tv → tv ≤ 5 →
      tv ≤ (msgLoopAux seq fuel retries tv env sends).tv ∧
        (msgLoopAux seq fuel retries tv env sends).tv ≤ 5 := by
  intro fuel
  induction fuel with
  | zero => intro retries tv env sends h1 h5; exact ⟨le_refl tv, h5⟩
  | succ k ih =>
    intro retries tv env sends h1 h5
    simp only [msgLoopAux]
    by_cases hw : waitForAck seq (env.headD []) = true
    · rw [if_pos hw]
      exact ⟨le_refl tv, h5⟩
    · rw [if_neg hw]
      by_cases hr : retries + 1 > 1
      · rw [if_pos hr]
        have htv2 : tv ≤ min (tv * (3 / 2)) 5 := by
          apply le_min
          · nlinarith
          · exact h5
        have h12 : 1 ≤ min (tv * (3 / 2)) 5 := le_trans h1 htv2
        have h52 : min (tv * (3 / 2)) 5 ≤ 5 := min_le_right _ _
        have hrec := ih (retries + 1) (min (tv * (3 / 2)) 5) env.tail (sends + 1) h12 h52
        exact ⟨le_trans htv2 hrec.1, hrec.2⟩
      · rw [if_neg hr]
        exact ih (retries + 1) tv env.tail (sends + 1) h1 h5

theorem msgLoop_tv (seq : Nat) (tv : ℚ) (env : List Window)
    (h1 : 1 ≤ tv) (h5 : tv ≤ 5) :
    tv ≤ (msgLoop seq 0 tv env 0).tv ∧ (msgLoop seq 0 tv env 0).tv ≤ 5 :=
  msgLoopAux_tv seq (max_retries - 0) 0 tv env 0 h1 h5

/-- The first record produced by a run of the message loop carries the
starting message number, sequence and `timeout_value`, and reports the
outcome of that message's retry loop. -/
theorem mainLoop_succ_head (k m s : Nat) (tv : ℚ) (env : List (List Window)) :
    ∃ rs, (mainLoop (k + 1) m s tv env).1 =
      { msgNum := m, seq := s, tvStart := tv
        tvEnd := (msgLoop s 0 tv (env.headD []) 0).tv
        acked := (msgLoop s 0 tv (env.headD []) 0).acked
        sends := (msgLoop s 0 tv (env.headD []) 0).sends } :: rs := by
  simp only [mainLoop]
  by_cases h : (msgLoop s 0 tv (env.headD []) 0).acked = true
  · rw [if_pos h]
    exact ⟨_, rfl⟩
  · rw [if_neg h]
    exact ⟨[], rfl⟩

/-- Unfolding of the message loop on an acknowledged message. -/
theorem mainLoop_succ_acked (k m s : Nat) (tv : ℚ) (env : List (List Window))
    (h : (msgLoop s 0 tv (env.headD []) 0).acked = true) :
    mainLoop (k + 1) m s tv env =
      ({ msgNum := m, seq := s, tvStart := tv,
          tvEnd := (msgLoop s 0 tv (env.headD []) 0).tv,
          acked := true,
          sends := (msgLoop s 0 tv (env.headD []) 0).sends } ::
          (mainLoop k (m + 1) ((s + 1) % 256) ((msgLoop s 0 tv (env.headD []) 0).tv) env.tail).1,
        (mainLoop k (m + 1) ((s + 1) % 256) ((msgLoop s 0 tv (env.headD []) 0).tv) env.tail).2) := by
  simp only [mainLoop]
  rw [if_pos h, h]

/-- Consecutive records of the message loop are linked: a successor
record exists only when its predecessor was acknowledged, it carries
the successor sequence modulo 256 and the next message number, and it
starts from the `timeout_value` its predecessor ended with. -/
theorem mainLoop_chain (k : Nat) :
    ∀ (m s : Nat) (tv : ℚ) (env : List (List Window)),
      List.Chain'
        (fun a b => a.acked = true ∧ b.seq = (a.seq + 1) % 256 ∧
          b.msgNum = a.msgNum + 1 ∧ b.tvStart = a.tvEnd)
        (mainLoop k m s tv env).1 := by
  induction k with
  | zero => intro m s tv env; simp [mainLoop]
  | succ k ih =>
    intro m s tv env
    simp only [mainLoop]
    by_cases h : (msgLoop s 0 tv (env.headD []) 0).acked = true
    · rw [if_pos h]
      rw [List.chain'_cons']
      constructor
      · intro b hb
        cases k with
        | zero => simp [mainLoop] at hb
        | succ k2 =>
          obtain ⟨rs, hrs⟩ :=
            mainLoop_succ_head k2 (m + 1) ((s + 1) % 256)
              (msgLoop s 0 tv (env.headD []) 0).tv env.tail
          rw [hrs] at hb
          simp only [List.head?_cons, Option.mem_def, Option.some.injEq] at hb
          subst hb
          exact ⟨h, rfl, rfl, rfl⟩
      · exact ih (m + 1) ((s + 1) % 256) (msgLoop s 0 tv (env.headD []) 0).tv env.tail
    · rw [if_neg h]
      simp

/-- Every record of the message loop keeps `timeout_value` within
`[1, 5]` and non-decreasing across its own retry loop, provided the
loop starts with a value in `[1, 5]`. -/
theorem mainLoop_tv_bounds (k : Nat) :
    ∀ (m s : Nat) (tv : ℚ) (env : List (List Window)), 1 ≤ tv → tv ≤ 5 →
      List.Forall (fun r => 1 ≤ r.tvStart ∧ r.tvStart ≤ r.tvEnd ∧ r.tvEnd ≤ 5)
        (mainLoop k m s tv env).1 := by
  induction k with
  | zero => intro m s tv env h1 h5; simp [mainLoop]
  | succ k ih =>
    intro m s tv env h1 h5
    have htv := msgLoop_tv s tv (env.headD []) h1 h5
    simp only [mainLoop]
    by_cases h : (msgLoop s 0 tv (env.headD []) 0).acked = true
    · rw [if_pos h]
      rw [List.forall_cons]
      refine ⟨⟨h1, htv.1, htv.2⟩, ?_⟩
      exact ih (m + 1) ((s + 1) % 256) (msgLoop s 0 tv (env.headD []) 0).tv env.tail
        (le_trans h1 htv.1) htv.2
    · rw [if_neg h]
      rw [List.forall_cons]
      exact ⟨⟨h1, htv.1, htv.2⟩, by simp⟩

/-- Bounds on the number of transmissions made by the DONE loop. -/
theorem doneLoopAux_sends (seq : Nat) :
    ∀ (fuel : Nat) (env : List Window) (sends : Nat),
      sends ≤ (doneLoopAux seq fuel env sends).2 ∧
        (doneLoopAux seq fuel env sends).2 ≤ sends + fuel ∧
        (1 ≤ fuel → sends + 1 ≤ (doneLoopAux seq fuel env sends).2) := by
  intro fuel
  induction fuel with
  | zero =>
    intro env sends
    simp only [doneLoopAux]
    exact ⟨le_refl _, by omega, by omega⟩
  | succ k ih =>
    intro env sends
    simp only [doneLoopAux]
    by_cases hw : waitForAck seq (env.headD []) = true
    · rw [if_pos hw]
      exact ⟨by omega, by omega, by omega⟩
    · rw [if_neg hw]
      have hrec := ih env.tail (sends + 1)
      exact ⟨by omega, by omega, by omega⟩

/-! ### Claim theorems -/

/-- C2: `create_checksum` ignores its sequence argument — any two
sequence numbers give the same digest for the same payload — and the
digest equals the spec's reference digest (count of set bits across
all payload bytes, decimal, left-zero-padded to 8 characters, encoded
as bytes).  It is a pure function of its arguments. -/
theorem create_checksum_seq_independent (s s2 : Nat) (p : List Nat) :
    create_checksum s p = create_checksum s2 p ∧ create_checksum s p = specDigest p := by
  constructor
  · rfl
  · simp [create_checksum, specDigest, bitSum_foldl]

/-- C8: a digest produced by `create_checksum` always verifies against
the same payload, since `verify_checksum` recomputes the digest and
compares for exact equality. -/
theorem verify_create_roundtrip (s : Nat) (p : List Nat) :
    verify_checksum s (create_checksum s p) p = true :=
  create_verifies s s p

/-- C9 (code bug): the digest is NOT always 8 bytes.  A payload of
12,500,000 bytes 0xFF has 10^8 set bits, whose decimal rendering has 9
digits; `zfill(8)` pads but never truncates, so the digest is 9 bytes,
contradicting the function's own docstring ("8-byte checksum"). -/
theorem create_checksum_overflow_length :
    (create_checksum 0 (List.replicate 12500000 255)).length = 9 := by
  have h : bitSum (List.replicate 12500000 255) = 100000000 := by
    rw [bitSum_replicate]
    decide
  unfold create_checksum
  rw [h]
  decide

/-- C1: on a checksum-valid packet the receiver sends exactly one ACK,
carrying the received packet's sequence number (not `expected_seq`);
`expected_seq` advances by one modulo 256 exactly when the received
sequence matches it, and is unchanged otherwise while the ACK is
still sent. -/
theorem server_valid_packet_acked (e : Nat) (p : Packet)
    (hv : verify_checksum p.seq p.checksum p.payload = true) :
    (serverStep e p).acks = [ackPacket p.seq] ∧
    (∀ a ∈ (serverStep e p).acks, a.seq = p.seq) ∧
    (p.seq = e → (serverStep e p).expected = (e + 1) % 256) ∧
    (p.seq ≠ e → (serverStep e p).expected = e) := by
  have hstep : serverStep e p =
      { expected := if p.seq = e then (e + 1) % 256 else e
        acks := [ackPacket p.seq]
        shutdown := p.payload == donePayload } := by
    simp only [serverStep, if_pos hv]
  rw [hstep]
  refine ⟨rfl, ?_, ?_, ?_⟩
  · intro a ha
    simp only [List.mem_singleton] at ha
    rw [ha]
    rfl
  · intro h
    simp only [if_pos h]
  · intro h
    simp only [if_neg h]

theorem server_valid_packet_acked_witness :
    (verify_checksum (msgPacket 0 0).seq (msgPacket 0 0).checksum (msgPacket 0 0).payload
        = true) ∧
    ((serverStep 0 (msgPacket 0 0)).acks = [ackPacket (msgPacket 0 0).seq] ∧
      (∀ a ∈ (serverStep 0 (msgPacket 0 0)).acks, a.seq = (msgPacket 0 0).seq) ∧
      ((msgPacket 0 0).seq = 0 → (serverStep 0 (msgPacket 0 0)).expected = (0 + 1) % 256) ∧
      ((msgPacket 0 0).seq ≠ 0 → (serverStep 0 (msgPacket 0 0)).expected = 0)) :=
  ⟨by decide, server_valid_packet_acked 0 (msgPacket 0 0) (by decide)⟩

/-- C6: on a packet whose checksum does not verify, the receiver sends
no ACK, leaves `expected_seq` unchanged and does not shut down — it
returns to waiting for the next packet. -/
theorem server_invalid_checksum_drop (e : Nat) (p : Packet)
    (hv : verify_checksum p.seq p.checksum p.payload = false) :
    serverStep e p = { expected := e, acks := [], shutdown := false } := by
  simp [serverStep, hv]

theorem server_invalid_checksum_drop_witness :
    (verify_checksum ({ seq := 0, checksum := [], payload := [65] } : Packet).seq
        ({ seq := 0, checksum := [], payload := [65] } : Packet).checksum
        ({ seq := 0, checksum := [], payload := [65] } : Packet).payload = false) ∧
    serverStep 0 { seq := 0, checksum := [], payload := [65] } =
      { expected := 0, acks := [], shutdown := false } :=
  ⟨by decide, server_invalid_checksum_drop 0 _ (by decide)⟩

/-- C4 (counterexample): an undecodable blob is NOT a mere drop for
the receiver.  The server's loop body has no exception handler, so
`packet.extract` failing sends control to the outer handler and the
receive loop is over: a valid packet following the bad blob is never
served (`expected_seq` stays 0, no ACK), although served alone it
would advance `expected_seq` and be acknowledged. -/
theorem server_malformed_crash_cx :
    serverRun 0 [none, some (msgPacket 0 0)] =
      { expected := 0, acks := [], exit := ServerExit.crashed } ∧
    serverRun 0 [some (msgPacket 0 0)] =
      { expected := 1, acks := [ackPacket 0], exit := ServerExit.outOfInput } := by
  decide

/-- C4 (amended): the sender treats an undecodable reply as a drop —
it is never accepted as an ACK and polling continues, so a valid ACK
later in the same window still succeeds — but the receiver does not:
an undecodable blob ends its receive loop (the decode failure
propagates to the outer handler), whatever datagrams follow. -/
theorem malformed_packet_amended (e : Nat) (rest : List (Option Packet))
    (s : Nat) (d : List Nat) (tv : ℚ) (env : List Window) :
    serverRun e (none :: rest) =
      { expected := e, acks := [], exit := ServerExit.crashed } ∧
    acceptsReply s none = false ∧
    (msgLoop s 0 tv
        ([none, some { seq := s, checksum := create_checksum s d, payload := d }] :: env)
        0).acked = true := by
  refine ⟨rfl, rfl, ?_⟩
  have hw : waitForAck s
      ((([none, some { seq := s, checksum := create_checksum s d, payload := d }] :: env).headD
        [])) = true := by
    simp [waitForAck, acceptsReply_valid]
  have hloop :
      msgLoop s 0 tv
          ([none, some { seq := s, checksum := create_checksum s d, payload := d }] :: env) 0 =
        { acked := true, tv := tv, sends := 0 + 1 } := by
    show msgLoopAux s (max_retries - 0) 0 tv _ 0 = _
    rw [show max_retries - 0 = 9 + 1 from rfl]
    exact msgLoopAux_accept s 9 0 tv _ 0 hw
  rw [hloop]

/-- C5: stop-and-wait.  In the sender's per-message records, a record
for the next message (the only source of transmissions of sequence
`(n + 1) % 256`) exists only when the previous message's record was
acknowledged — a reply accepted by checksum verification and sequence
match — so at most one message is ever outstanding. -/
theorem sender_stop_and_wait (env : List (List Window)) (doneEnv : List Window) :
    List.Chain' (fun a b => a.acked = true ∧ b.seq = (a.seq + 1) % 256)
      (clientRun env doneEnv).records := by
  have hrec : (clientRun env doneEnv).records = (mainLoop 20 0 0 baseTimeout env).1 := rfl
  rw [hrec]
  exact List.Chain'.imp (fun a b hab => ⟨hab.1, hab.2.1⟩) (mainLoop_chain 20 0 0 baseTimeout env)

/-- C3 (counterexample): `timeout_value` is NOT reset at the start of
each new message.  In a run where message 0 needs two retries (the
second escalating the timeout to 1.5 s) and is then acknowledged,
message 1 starts with `timeout_value = 1.5`, not the base 1.0. -/
theorem timeout_not_reset_cx :
    (((clientRun [[[], [], [some (ackPacket 0)]], [[some (ackPacket 1)]]] []).records.get? 1).map
        MsgRecord.tvStart) = some (3 / 2) ∧
    ((3 : ℚ) / 2) ≠ 1 := by
  constructor
  · have hmin : min ((1 : ℚ) * (3 / 2)) 5 = 3 / 2 := by rw [min_def]; norm_num
    have hfail0 : waitForAck 0 (([[], [], [some (ackPacket 0)]] : List Window).headD [])
        = false := rfl
    have hfail1 : waitForAck 0 (([[], [some (ackPacket 0)]] : List Window).headD [])
        = false := rfl
    have hacc0 : waitForAck 0 (([[some (ackPacket 0)]] : List Window).headD []) = true := by
      decide
    have hacc1 : waitForAck 1 (([[some (ackPacket 1)]] : List Window).headD []) = true := by
      decide
    have hm0 : msgLoop 0 0 1 [[], [], [some (ackPacket 0)]] 0 =
        { acked := true, tv := 3 / 2, sends := 3 } := by
      show msgLoopAux 0 (max_retries - 0) 0 1 [[], [], [some (ackPacket 0)]] 0 = _
      rw [show max_retries - 0 = 9 + 1 from rfl]
      rw [msgLoopAux_fail 0 9 0 1 [[], [], [some (ackPacket 0)]] 0 hfail0]
      rw [if_neg (by norm_num)]
      simp only [List.tail_cons]
      rw [show (9 : Nat) = 8 + 1 from rfl]
      rw [msgLoopAux_fail 0 8 (0 + 1) 1 [[], [some (ackPacket 0)]] (0 + 1) hfail1]
      rw [if_pos (by norm_num), hmin]
      simp only [List.tail_cons]
      rw [show (8 : Nat) = 7 + 1 from rfl]
      rw [msgLoopAux_accept 0 7 (0 + 1 + 1) (3 / 2) [[some (ackPacket 0)]] (0 + 1 + 1) hacc0]
    have hm1 : msgLoop 1 0 (3 / 2) [[some (ackPacket 1)]] 0 =
        { acked := true, tv := 3 / 2, sends := 1 } := by
      show msgLoopAux 1 (max_retries - 0) 0 (3 / 2) [[some (ackPacket 1)]] 0 = _
      rw [show max_retries - 0 = 9 + 1 from rfl]
      rw [msgLoopAux_accept 1 9 0 (3 / 2) [[some (ackPacket 1)]] 0 hacc1]
    have hcr : (clientRun [[[], [], [some (ackPacket 0)]], [[some (ackPacket 1)]]] []).records =
        (mainLoop 20 0 0 1 [[[], [], [some (ackPacket 0)]], [[some (ackPacket 1)]]]).1 := rfl
    have hstep0 := mainLoop_succ_acked 19 0 0 1
      [[[], [], [some (ackPacket 0)]], [[some (ackPacket 1)]]] (by rw [List.headD_cons, hm0])
    rw [List.headD_cons, List.tail_cons, hm0] at hstep0
    have hstep1 := mainLoop_succ_acked 18 (0 + 1) ((0 + 1) % 256) (3 / 2)
      [[[some (ackPacket 1)]]]
      (by
        have hx : (msgLoop 1 0 (3 / 2) [[some (ackPacket 1)]] 0).acked = true := by rw [hm1]
        exact hx)
    rw [hcr]
    rw [show (20 : Nat) = 19 + 1 from rfl]
    rw [hstep0]
    dsimp only
    rw [show (19 : Nat) = 18 + 1 from rfl]
    rw [hstep1]
    rfl
  · norm_num

/-- C3 (amended): `timeout_value` starts at the base 1.0 at the start
of the run, never decreases within a message's retry loop, stays in
`[1, 5]`, and each new message starts with the value the previous
message ended with — it is not reset to the base. -/
theorem timeout_policy_amended (env : List (List Window)) (doneEnv : List Window) :
    ((clientRun env doneEnv).records.head?).map MsgRecord.tvStart = some baseTimeout ∧
    List.Chain' (fun a b => b.tvStart = a.tvEnd) (clientRun env doneEnv).records ∧
    List.Forall (fun r => 1 ≤ r.tvStart ∧ r.tvStart ≤ r.tvEnd ∧ r.tvEnd ≤ 5)
      (clientRun env doneEnv).records := by
  have hrec : (clientRun env doneEnv).records = (mainLoop 20 0 0 baseTimeout env).1 := rfl
  rw [hrec]
  obtain ⟨rs, hrs⟩ := mainLoop_succ_head 19 0 0 baseTimeout env
  refine ⟨?_, ?_, ?_⟩
  · rw [show (20 : Nat) = 19 + 1 from rfl, hrs]
    rfl
  · exact List.Chain'.imp (fun a b hab => hab.2.2.2) (mainLoop_chain 20 0 0 baseTimeout env)
  · exact mainLoop_tv_bounds 20 0 0 baseTimeout env (le_refl 1) (by norm_num [baseTimeout])

/-- C7: whatever the environment did to the 20-message loop —
success or retry-budget abort — the run always ends with the DONE
handshake: the DONE packet (payload `b"DONE"`) is transmitted at least
once and at most `max_retries` times, with its own retry budget. -/
theorem done_always_attempted (env : List (List Window)) (doneEnv : List Window) :
    1 ≤ (clientRun env doneEnv).doneSends ∧
    (clientRun env doneEnv).doneSends ≤ max_retries ∧
    (donePacket (clientRun env doneEnv).finalSeq).payload = strToBytes "DONE" := by
  have h : (clientRun env doneEnv).doneSends =
      (doneLoopAux (mainLoop 20 0 0 baseTimeout env).2.1 (max_retries - 0) doneEnv 0).2 := rfl
  have hb := doneLoopAux_sends (mainLoop 20 0 0 baseTimeout env).2.1 (max_retries - 0) doneEnv 0
  rw [h]
  refine ⟨hb.2.2 (by norm_num [max_retries]), ?_, rfl⟩
  have hub := hb.2.1
  simp only [max_retries] at hub ⊢
  omega

/-- C10: the sender accepts a reply solely on checksum verification
and sequence equality: any packet whose checksum verifies against its
own payload and whose sequence equals the outstanding one is accepted,
whatever that payload is — it ends the wait with a single transmission
and the message is acknowledged. -/
theorem sender_accepts_any_valid_payload (s : Nat) (d : List Nat) (w : Window)
    (hmem : (some { seq := s, checksum := create_checksum s d, payload := d } : Reply) ∈ w)
    (env : List Window) (tv : ℚ) :
    waitForAck s w = true ∧
    (msgLoop s 0 tv (w :: env) 0).acked = true ∧
    (msgLoop s 0 tv (w :: env) 0).sends = 1 := by
  have hw : waitForAck s w = true := by
    rw [waitForAck, List.any_eq_true]
    exact ⟨_, hmem, acceptsReply_valid s d⟩
  have hw2 : waitForAck s ((w :: env).headD []) = true := by
    simpa using hw
  have hloop : msgLoop s 0 tv (w :: env) 0 = { acked := true, tv := tv, sends := 0 + 1 } := by
    show msgLoopAux s (max_retries - 0) 0 tv (w :: env) 0 = _
    rw [show max_retries - 0 = 9 + 1 from rfl]
    exact msgLoopAux_accept s 9 0 tv (w :: env) 0 hw2
  rw [hloop]
  exact ⟨hw, rfl, rfl⟩

theorem sender_accepts_any_valid_payload_witness :
    ((some { seq := 0, checksum := create_checksum 0 [65], payload := [65] } : Reply) ∈
      ([some { seq := 0, checksum := create_checksum 0 [65], payload := [65] }] : Window)) ∧
    (waitForAck 0 [some { seq := 0, checksum := create_checksum 0 [65], payload := [65] }]
        = true ∧
      (msgLoop 0 0 1 ([some { seq := 0, checksum := create_checksum 0 [65], payload := [65] }]
          :: []) 0).acked = true ∧
      (msgLoop 0 0 1 ([some { seq := 0, checksum := create_checksum 0 [65], payload := [65] }]
          :: []) 0).sends = 1) :=
  ⟨by decide, sender_accepts_any_valid_payload 0 [65]
    [some { seq := 0, checksum := create_checksum 0 [65], payload := [65] }] (by decide) [] 1⟩

end RDT
